import Mathlib

/-!
Shallow embedding of the hybrid recommendation core of the marketing
personalization platform (`src/api/recommendation_service.py`, with the
GET endpoint pass-through of `src/api/main.py`).

Python floats are modelled as exact rationals (`ℚ`); the backing stores
(vector index, graph database, analytics store) are modelled as oracle
functions supplied through an environment record, fallible (`Except`)
where the Python code wraps the stage in `try`/`except`.  Python's
stable `sort`/`sorted` is modelled by `List.insertionSort`, which places
each element (inserted in reverse order of the original list) before the
elements it ties with — the same output as any stable sort for the same
key.  Python's slice `l[:k]`, which accepts negative `k`, is modelled by
`pySlice`.
-/

namespace MarketingRec

/-- A raw vector-search hit (`hit.entity.user_id`, `hit.score` = raw L2
distance), from `collection.search` in `get_similar_users_vector`. -/
structure Hit where
  user_id : String
  score : ℚ
deriving DecidableEq

/-- An entry of the `similar_users` list produced by
`get_similar_users_vector`: after the final conversion, `similarity` is
`1 / (1 + retained_distance)`; `count` is how many raw hits mentioned
this user. -/
structure SimilarUser where
  user_id : String
  similarity : ℚ
  count : Nat
deriving DecidableEq

/-- A row returned by the Neo4j expansion in `get_campaigns_for_users`:
campaign id, number of distinct neighbor users connected to it, and the
list of those users. -/
structure Campaign where
  campaign_id : String
  user_count : Nat
  user_list : List String
deriving DecidableEq

/-- A final recommendation record as assembled by `get_recommendations`
(the `metadata` sub-dict is flattened into the record; the `explanation`
string carries no further data). -/
structure Recommendation where
  campaign_id : String
  score : ℚ
  confidence : ℚ
  similarity_score : ℚ
  user_count : Nat
  engagement_frequency : ℚ
  similar_users : List String
deriving DecidableEq

/-! ### Similarity client (`get_similar_users_vector`, lines 124-197) -/

/-- Distance-to-similarity conversion of line 191:
`user["similarity"] = 1.0 / (1.0 + user["similarity"])`. -/
def similarity (d : ℚ) : ℚ := 1 / (1 + d)

/-- One step of the `similar_users` dict update (lines 167-178): a new
key is appended (Python dicts preserve insertion order) with the raw
distance and count 1; a repeated key has its stored distance replaced by
`(stored + new) / 2` and its count incremented. -/
def insertHit : List (String × ℚ × Nat) → String → ℚ → List (String × ℚ × Nat)
  | [], u, d => [(u, d, 1)]
  | (v, s, c) :: rest, u, d =>
    if v = u then (v, (s + d) / 2, c + 1) :: rest
    else (v, s, c) :: insertHit rest u d

/-- The dict-building loop over raw hits (lines 162-178): hits whose
`user_id` equals the query user are skipped, the rest go through
`insertHit`. -/
def dedupHits (uid : String) (hits : List Hit) : List (String × ℚ × Nat) :=
  hits.foldl (fun acc h => if h.user_id = uid then acc else insertHit acc h.user_id h.score) []

/-- `sorted(similar_users.values(), key=..., reverse=False)` of lines
181-185: stable sort ascending by the retained raw distance. -/
def sortNeighbors (l : List (String × ℚ × Nat)) : List (String × ℚ × Nat) :=
  l.insertionSort (fun a b => a.2.1 ≤ b.2.1)

/-- The deduplicated, distance-sorted, fanout-truncated neighbor list
(before conversion to similarity). -/
def retainedNeighbors (uid : String) (hits : List Hit) (fanout : Nat) :
    List (String × ℚ × Nat) :=
  (sortNeighbors (dedupHits uid hits)).take fanout

/-- Conversion of a retained `(user, distance, count)` entry into the
returned record (line 191 rewrites the distance in place). -/
def toSimilarUser (x : String × ℚ × Nat) : SimilarUser :=
  ⟨x.1, similarity x.2.1, x.2.2⟩

/-- `limit=top_k * 10` of line 157. -/
def searchLimit (fanout : Nat) : Nat := fanout * 10

/-- The pure core of `get_similar_users_vector`: the raw search results
are abstracted as an oracle `search : limit → hits`. -/
def getSimilarUsersVector (search : Nat → List Hit) (uid : String) (fanout : Nat) :
    List SimilarUser :=
  (retainedNeighbors uid (search (searchLimit fanout)) fanout).map toSimilarUser

/-! ### Engagement scorer (`get_campaign_engagement_frequency`, lines 235-261) -/

/-- `df["engagement_count"].max() if not df.empty else 1.0` (line 249);
`rows` is the analytics-store result set, one `(campaign_id, count)` row
per campaign. -/
def maxCount : List (String × ℚ) → ℚ
  | [] => 1
  | r :: rs => (rs.map (·.2)).foldl max r.2

/-- The normalization loop of lines 245-257: an empty result set yields
an empty map; otherwise each row maps to `count / max` when the maximum
is positive and to `0.0` otherwise. -/
def engagementFrequency (rows : List (String × ℚ)) : List (String × ℚ) :=
  match rows with
  | [] => []
  | r :: rs =>
    let m := maxCount (r :: rs)
    (r :: rs).map (fun p => (p.1, if 0 < m then p.2 / m else 0))

/-- `engagement_scores.get(campaign_id, 0.0)` (line 317). -/
def lookupScore (m : List (String × ℚ)) (cid : String) : ℚ :=
  match m.find? (fun p => p.1 == cid) with
  | some p => p.2
  | none => 0

/-! ### Ranking engine (`get_recommendations`, lines 300-343) -/

/-- The fixed-weight blend of lines 320-324. -/
def combinedScore (s u e : ℚ) : ℚ := 3/10 * s + 2/10 * u + 5/10 * e

/-- `min(combined_score * 1.2, 1.0)` of line 329. -/
def confidenceOf (c : ℚ) : ℚ := min (c * (6/5)) 1

/-- The per-campaign record construction of lines 301-337. -/
def mkRecommendation (similar_users : List SimilarUser) (eng : List (String × ℚ))
    (c : Campaign) : Recommendation :=
  let relevant := similar_users.filter (fun u => c.user_list.contains u.user_id)
  let avg_similarity : ℚ :=
    if relevant.isEmpty then 0 else (relevant.map (·.similarity)).sum / relevant.length
  let user_count_score : ℚ :=
    if similar_users.isEmpty then 0
    else min ((c.user_count : ℚ) / (similar_users.length : ℚ)) 1
  let engagement_score := lookupScore eng c.campaign_id
  let combined := combinedScore avg_similarity user_count_score engagement_score
  { campaign_id := c.campaign_id
    score := combined
    confidence := confidenceOf combined
    similarity_score := avg_similarity
    user_count := c.user_count
    engagement_frequency := engagement_score
    similar_users := c.user_list.take 3 }

/-- `recommendations.sort(key=lambda x, reverse=True)` of line 340:
stable sort, score descending. -/
def sortRecommendations (l : List Recommendation) : List Recommendation :=
  l.insertionSort (fun a b => b.score ≤ a.score)

/-- Python's slice `l[:k]` for an `int` bound `k`: a nonnegative `k`
keeps the first `min(k, len(l))` elements, a negative `k` keeps the
first `max(len(l) + k, 0)` elements (drops the last `|k|`). -/
def pySlice (l : List α) (k : Int) : List α :=
  if 0 ≤ k then l.take k.toNat else l.take (l.length - (-k).toNat)

/-! ### Orchestrator (`get_recommendations`, lines 263-347) -/

/-- The literal `top_k=5` of line 277: the neighbor fan-out the
orchestrator requests from the similarity stage. -/
def NEIGHBOR_FANOUT : Nat := 5

/-- The three backend-facing stages, abstracted as fallible oracles:
`.error` models an exception escaping the stage (in the Python code each
stage additionally catches its own backend errors and degrades to the
empty result, which is the special case `.ok []`). -/
structure Env where
  similarUsers : String → Nat → Except String (List SimilarUser)
  campaignsForUsers : List String → Except String (List Campaign)
  engagementScores : List String → Except String (List (String × ℚ))

/-- The orchestration body inside the `try` of `get_recommendations`:
empty intermediate results short-circuit to `.ok []` (lines 279-281,
289-291), an exception propagates as `.error`. -/
def getRecommendationsE (env : Env) (uid : String) (top_k : Int) :
    Except String (List Recommendation) :=
  match env.similarUsers uid NEIGHBOR_FANOUT with
  | .error e => .error e
  | .ok similar_users =>
    if similar_users.isEmpty then .ok []
    else
      match env.campaignsForUsers (similar_users.map (·.user_id)) with
      | .error e => .error e
      | .ok campaigns =>
        if campaigns.isEmpty then .ok []
        else
          match env.engagementScores (campaigns.map (·.campaign_id)) with
          | .error e => .error e
          | .ok engagement_scores =>
            .ok (pySlice
              (sortRecommendations
                (campaigns.map (mkRecommendation similar_users engagement_scores)))
              top_k)

/-- `get_recommendations` (lines 263-347): the outer `except` maps any
exception to the empty list, so the function is total and always
returns a list. -/
def getRecommendations (env : Env) (uid : String) (top_k : Int) :
    List Recommendation :=
  match getRecommendationsE env uid top_k with
  | .ok l => l
  | .error _ => []

/-- The GET endpoint `/recommendations/{user_id}` (`main.py` lines
113-147) forwards its `top_k` query parameter to the service with no
range validation (cache and telemetry elided). -/
def apiGetRecommendations (env : Env) (uid : String) (top_k : Int) :
    List Recommendation :=
  getRecommendations env uid top_k

/-! ### Concrete environments and inputs used to instantiate the theorems -/

/-- An environment whose three stages all succeed with empty results. -/
def envEmpty : Env where
  similarUsers := fun _ _ => .ok []
  campaignsForUsers := fun _ => .ok []
  engagementScores := fun _ => .ok []

/-- An environment whose similarity stage answers the empty list at
fan-out 5 but a non-empty list at every other fan-out. -/
def envFanA : Env where
  similarUsers := fun _ k => if k = 5 then .ok [] else .ok [⟨"x", 1, 1⟩]
  campaignsForUsers := fun _ => .ok []
  engagementScores := fun _ => .ok []

/-- A concrete neighbor record: user "u1" with similarity 1. -/
def suU1 : SimilarUser := ⟨"u1", 1, 1⟩

/-- An environment with one neighbor user and one connected campaign. -/
def envOne : Env where
  similarUsers := fun _ _ => .ok [⟨"u1", 1, 1⟩]
  campaignsForUsers := fun _ => .ok [⟨"cA", 1, ["u1"]⟩]
  engagementScores := fun _ => .ok []

/-- An environment with one neighbor user and two connected campaigns. -/
def envTwo : Env where
  similarUsers := fun _ _ => .ok [⟨"u1", 1, 1⟩]
  campaignsForUsers := fun _ => .ok [⟨"cA", 1, ["u1"]⟩, ⟨"cB", 0, []⟩]
  engagementScores := fun _ => .ok []

/-- A concrete raw-hit oracle: four hits, one of them the query user
"q", one neighbor appearing twice. -/
def searchW : Nat → List Hit :=
  fun _ => [⟨"a", 1⟩, ⟨"q", 0⟩, ⟨"a", 3⟩, ⟨"b", 2⟩]

/-! ### Helper lemmas -/

theorem pySlice_of_nonneg (l : List α) (k : Int) (hk : 0 ≤ k) :
    pySlice l k = l.take k.toNat := if_pos hk

theorem pySlice_of_neg (l : List α) (k : Int) (hk : k < 0) :
    pySlice l k = l.take (l.length - (-k).toNat) := if_neg (not_le.2 hk)

theorem mem_pySlice {l : List α} {k : Int} {a : α} (h : a ∈ pySlice l k) : a ∈ l := by
  unfold pySlice at h
  split at h <;> exact List.Sublist.mem h (List.take_sublist _ _)

/-- `sortRecommendations` really sorts: score non-increasing. -/
theorem sorted_sortRecommendations (l : List Recommendation) :
    List.Sorted (fun a b => b.score ≤ a.score) (sortRecommendations l) := by
  haveI : IsTotal Recommendation (fun a b => b.score ≤ a.score) :=
    ⟨fun a b => le_total b.score a.score⟩
  haveI : IsTrans Recommendation (fun a b => b.score ≤ a.score) :=
    ⟨fun _ _ _ h1 h2 => le_trans h2 h1⟩
  exact List.sorted_insertionSort _ l

/-- `sortNeighbors` really sorts: retained raw distance non-decreasing. -/
theorem sorted_sortNeighbors (l : List (String × ℚ × Nat)) :
    List.Sorted (fun a b => a.2.1 ≤ b.2.1) (sortNeighbors l) := by
  haveI : IsTotal (String × ℚ × Nat) (fun a b => a.2.1 ≤ b.2.1) :=
    ⟨fun a b => le_total a.2.1 b.2.1⟩
  haveI : IsTrans (String × ℚ × Nat) (fun a b => a.2.1 ≤ b.2.1) :=
    ⟨fun _ _ _ h1 h2 => le_trans h1 h2⟩
  exact List.sorted_insertionSort _ l

/-- Stability of the descending insertion into a list: the elements of
any fixed score class are preserved, with a newly inserted member of the
class landing in front (it will have been inserted later than them, i.e.
it stood earlier in the original list). -/
theorem filter_score_orderedInsert (s : ℚ) (a : Recommendation)
    (l : List Recommendation) :
    (l.orderedInsert (fun x y => y.score ≤ x.score) a).filter
        (fun x => decide (x.score = s)) =
      if a.score = s then a :: l.filter (fun x => decide (x.score = s))
      else l.filter (fun x => decide (x.score = s)) := by
  induction l with
  | nil =>
    by_cases ha : a.score = s <;> simp [List.orderedInsert, List.filter, ha]
  | cons b t ih =>
    simp only [List.orderedInsert]
    by_cases hab : b.score ≤ a.score
    · rw [if_pos hab]
      by_cases ha : a.score = s
      · rw [if_pos ha]
        simp [List.filter_cons, ha]
      · rw [if_neg ha]
        simp [List.filter_cons, ha]
    · rw [if_neg hab, List.filter_cons]
      by_cases ha : a.score = s
      · have hbs : b.score ≠ s := fun h => hab (le_of_eq (h.trans ha.symm))
        rw [if_pos ha]
        simp [hbs, ih, ha, List.filter_cons]
      · rw [if_neg ha]
        by_cases hbs : b.score = s <;> simp [hbs, ih, ha]

/-- Stability of the descending sort: each score class of the output is
exactly the score class of the input, in the input's order. -/
theorem filter_score_sortRecommendations (s : ℚ) (l : List Recommendation) :
    (sortRecommendations l).filter (fun x => decide (x.score = s)) =
      l.filter (fun x => decide (x.score = s)) := by
  induction l with
  | nil => rfl
  | cons a t ih =>
    simp only [sortRecommendations, List.insertionSort] at ih ⊢
    rw [filter_score_orderedInsert]
    by_cases ha : a.score = s <;> simp [ha, List.filter_cons, ih]

/-! ### Claim theorems -/

/-- C4: for every distance `d ≥ 0`, the conversion
`similarity d = 1 / (1 + d)` is strictly positive, at most 1, equals 1
at `d = 0`, and is strictly decreasing in `d`. -/
theorem similarity_spec (d : ℚ) (hd : 0 ≤ d) :
    0 < similarity d ∧ similarity d ≤ 1 ∧ similarity 0 = 1 ∧
      ∀ d2 : ℚ, d < d2 → similarity d2 < similarity d := by
  have h1 : (0 : ℚ) < 1 + d := by linarith
  refine ⟨?_, ?_, ?_, ?_⟩
  · unfold similarity
    positivity
  · unfold similarity
    rw [div_le_one h1]
    linarith
  · unfold similarity
    norm_num
  · intro d2 hlt
    unfold similarity
    exact one_div_lt_one_div_of_lt h1 (by linarith)

/-- Witness for C4 at the concrete distance `d = 2`. -/
theorem similarity_spec_witness : (0 : ℚ) ≤ 2 ∧ 0 < similarity 2 :=
  ⟨by norm_num, (similarity_spec 2 (by norm_num)).1⟩

/-- C3: for inputs in `[0,1]`, the ranking blend is the fixed-weight sum
`0.3·s + 0.2·u + 0.5·e`, it lies in `[0,1]`, and the confidence
`min(combined · 1.2, 1.0)` also lies in `[0,1]`. -/
theorem combinedScore_spec (s u e : ℚ)
    (hs0 : 0 ≤ s) (hs1 : s ≤ 1) (hu0 : 0 ≤ u) (hu1 : u ≤ 1)
    (he0 : 0 ≤ e) (he1 : e ≤ 1) :
    combinedScore s u e = 3/10 * s + 2/10 * u + 5/10 * e ∧
      0 ≤ combinedScore s u e ∧ combinedScore s u e ≤ 1 ∧
      confidenceOf (combinedScore s u e) = min (combinedScore s u e * (6/5)) 1 ∧
      0 ≤ confidenceOf (combinedScore s u e) ∧
      confidenceOf (combinedScore s u e) ≤ 1 := by
  refine ⟨rfl, ?_, ?_, rfl, ?_, ?_⟩
  · unfold combinedScore
    linarith
  · unfold combinedScore
    linarith
  · unfold confidenceOf combinedScore
    apply le_min (by nlinarith) (by norm_num)
  · exact min_le_right _ _

/-- Witness for C3 at `s = 1/2`, `u = 1`, `e = 0`. -/
theorem combinedScore_spec_witness :
    combinedScore (1/2) 1 0 = 3/10 * (1/2) + 2/10 * 1 + 5/10 * 0 :=
  (combinedScore_spec (1/2) 1 0 (by norm_num) (by norm_num) (by norm_num)
    (by norm_num) (by norm_num) (by norm_num)).1

/-- C5 counterexample: with a single backend row carrying engagement
count 0 (so the batch maximum is 0), the scorer returns the non-empty
map `{c1 ↦ 0.0}`, not the empty map the claim demands. -/
theorem engagementFrequency_zero_max_counterexample :
    maxCount [("c1", (0 : ℚ))] = 0 ∧
      engagementFrequency [("c1", (0 : ℚ))] = [("c1", 0)] ∧
      engagementFrequency [("c1", (0 : ℚ))] ≠ [] := by
  refine ⟨rfl, ?_, ?_⟩
  · simp +decide [engagementFrequency, maxCount]
  · simp +decide [engagementFrequency, maxCount]

/-- C5 (amended): the scorer returns the empty map exactly when the
backend result set is empty (in particular for an empty batch, for
which the backend returns no rows); otherwise each row's count `c` maps
to `c / max` when the batch maximum is positive and to `0.0` when the
maximum is zero (a map of zeros, not an empty map); counts
`{10, 5, 0}` yield frequencies `{1.0, 0.5, 0.0}`. -/
theorem engagementFrequency_spec (rows : List (String × ℚ)) :
    (engagementFrequency rows = [] ↔ rows = []) ∧
      engagementFrequency rows =
        rows.map (fun p => (p.1, if 0 < maxCount rows then p.2 / maxCount rows else 0)) ∧
      engagementFrequency [("a", 10), ("b", 5), ("c", 0)] =
        [("a", 1), ("b", 1/2), ("c", 0)] := by
  refine ⟨?_, ?_, ?_⟩
  · cases rows with
    | nil => simp [engagementFrequency]
    | cons r rs => simp [engagementFrequency]
  · cases rows with
    | nil => rfl
    | cons r rs => rfl
  · have h : maxCount [("a", (10 : ℚ)), ("b", 5), ("c", 0)] = 10 := by
      norm_num [maxCount]
    simp [engagementFrequency, h]
    norm_num

/-- C6: the deduplication loop does not keep the arithmetic mean of the
raw distances of repeated hits; it keeps a running pairwise average.
For a neighbor hit three times with distances 1, 2, 3 it retains
`((1 + 2)/2 + 3)/2 = 9/4`, not the mean `2` (while still counting the
three hits), contradicting the loop's own "Average similarity" intent
for which the hit count is tracked. -/
theorem dedupHits_running_average :
    dedupHits "q" [⟨"n", 1⟩, ⟨"n", 2⟩, ⟨"n", 3⟩] = [("n", 9/4, 3)] ∧
      (9/4 : ℚ) ≠ (1 + 2 + 3) / 3 := by
  constructor
  · simp +decide [dedupHits, insertHit]
    norm_num
  · norm_num

theorem insertHit_map_fst (l : List (String × ℚ × Nat)) (u : String) (d : ℚ) :
    (insertHit l u d).map (·.1) =
      if u ∈ l.map (·.1) then l.map (·.1) else l.map (·.1) ++ [u] := by
  induction l with
  | nil => simp [insertHit]
  | cons p t ih =>
    obtain ⟨v, s, c⟩ := p
    by_cases h : v = u
    · subst h
      simp [insertHit]
    · simp only [insertHit, if_neg h, List.map_cons]
      rw [ih]
      by_cases hm : u ∈ t.map (·.1)
      · simp [hm, List.mem_cons, Ne.symm h]
      · simp [hm, List.mem_cons, Ne.symm h]

theorem insertHit_nonneg (u : String) (d : ℚ) (hd : 0 ≤ d) :
    ∀ l : List (String × ℚ × Nat), (∀ x ∈ l, 0 ≤ x.2.1) →
      ∀ x ∈ insertHit l u d, 0 ≤ x.2.1 := by
  intro l
  induction l with
  | nil =>
    intro _ x hx
    simp only [insertHit, List.mem_singleton] at hx
    subst hx
    exact hd
  | cons p t ih =>
    obtain ⟨v, s, c⟩ := p
    intro hl x hx
    by_cases h : v = u
    · subst h
      simp only [insertHit, if_pos rfl] at hx
      rcases List.mem_cons.1 hx with rfl | hx'
      · have hs : 0 ≤ s := hl (v, s, c) (List.mem_cons_self _ _)
        show (0 : ℚ) ≤ (s + d) / 2
        linarith
      · exact hl x (List.mem_cons_of_mem _ hx')
    · simp only [insertHit, if_neg h] at hx
      rcases List.mem_cons.1 hx with rfl | hx'
      · exact hl (v, s, c) (List.mem_cons_self _ _)
      · exact ih (fun y hy => hl y (List.mem_cons_of_mem _ hy)) x hx'

theorem dedupHits_fold_keys (uid : String) :
    ∀ (hits : List Hit) (acc : List (String × ℚ × Nat)),
      (acc.map (·.1)).Nodup → uid ∉ acc.map (·.1) →
      (((hits.foldl (fun acc h => if h.user_id = uid then acc
          else insertHit acc h.user_id h.score) acc)).map (·.1)).Nodup ∧
        uid ∉ ((hits.foldl (fun acc h => if h.user_id = uid then acc
          else insertHit acc h.user_id h.score) acc)).map (·.1) := by
  intro hits
  induction hits with
  | nil =>
    intro acc h1 h2
    exact ⟨h1, h2⟩
  | cons h t ih =>
    intro acc h1 h2
    simp only [List.foldl_cons]
    by_cases hh : h.user_id = uid
    · rw [if_pos hh]
      exact ih acc h1 h2
    · rw [if_neg hh]
      apply ih
      · rw [insertHit_map_fst]
        by_cases hm : h.user_id ∈ acc.map (·.1)
        · rw [if_pos hm]
          exact h1
        · rw [if_neg hm]
          rw [(List.perm_append_singleton _ _).nodup_iff, List.nodup_cons]
          exact ⟨hm, h1⟩
      · rw [insertHit_map_fst]
        by_cases hm : h.user_id ∈ acc.map (·.1)
        · rw [if_pos hm]
          exact h2
        · rw [if_neg hm]
          simp only [List.mem_append, List.mem_singleton]
          rintro (hc | hc)
          · exact h2 hc
          · exact hh hc.symm

theorem dedupHits_fold_nonneg (uid : String) :
    ∀ (hits : List Hit) (acc : List (String × ℚ × Nat)),
      (∀ h ∈ hits, 0 ≤ h.score) → (∀ x ∈ acc, 0 ≤ x.2.1) →
      ∀ x ∈ hits.foldl (fun acc h => if h.user_id = uid then acc
          else insertHit acc h.user_id h.score) acc, 0 ≤ x.2.1 := by
  intro hits
  induction hits with
  | nil =>
    intro acc _ hacc
    exact hacc
  | cons h t ih =>
    intro acc hht hacc
    simp only [List.foldl_cons]
    by_cases hh : h.user_id = uid
    · rw [if_pos hh]
      exact ih acc (fun y hy => hht y (List.mem_cons_of_mem _ hy)) hacc
    · rw [if_neg hh]
      exact ih _ (fun y hy => hht y (List.mem_cons_of_mem _ hy))
        (insertHit_nonneg _ _ (hht h (List.mem_cons_self _ _)) acc hacc)

theorem dedupHits_keys (uid : String) (hits : List Hit) :
    ((dedupHits uid hits).map (·.1)).Nodup ∧ uid ∉ (dedupHits uid hits).map (·.1) :=
  dedupHits_fold_keys uid hits [] (by simp) (by simp)

theorem dedupHits_nonneg (uid : String) (hits : List Hit)
    (hh : ∀ h ∈ hits, 0 ≤ h.score) : ∀ x ∈ dedupHits uid hits, 0 ≤ x.2.1 :=
  dedupHits_fold_nonneg uid hits [] hh (by simp)

theorem mem_retainedNeighbors {uid : String} {hits : List Hit} {fanout : Nat}
    {x : String × ℚ × Nat} (hx : x ∈ retainedNeighbors uid hits fanout) :
    x ∈ dedupHits uid hits := by
  unfold retainedNeighbors at hx
  exact (List.mem_insertionSort _).1 (List.Sublist.mem hx (List.take_sublist _ _))

/-- C8: for every query user and fan-out, the similar-user search asks
the index for `fanout * 10` raw hits and its result depends on the
index only through those hits; the returned list never contains the
query user, has pairwise-distinct user ids, has length at most
`fanout`, and is the image under distance-to-similarity conversion of
the retained-neighbor list, which is sorted ascending by retained raw
distance (hence, for nonnegative raw distances, the returned list is
sorted descending by similarity). -/
theorem similar_users_spec (search : Nat → List Hit) (uid : String) (fanout : Nat) :
    searchLimit fanout = fanout * 10 ∧
    (∀ search' : Nat → List Hit, search' (fanout * 10) = search (fanout * 10) →
        getSimilarUsersVector search' uid fanout = getSimilarUsersVector search uid fanout) ∧
    (∀ u ∈ getSimilarUsersVector search uid fanout, u.user_id ≠ uid) ∧
    ((getSimilarUsersVector search uid fanout).map (·.user_id)).Nodup ∧
    (getSimilarUsersVector search uid fanout).length ≤ fanout ∧
    List.Sorted (fun a b => a.2.1 ≤ b.2.1)
      (retainedNeighbors uid (search (searchLimit fanout)) fanout) ∧
    getSimilarUsersVector search uid fanout =
      (retainedNeighbors uid (search (searchLimit fanout)) fanout).map toSimilarUser ∧
    ((∀ h ∈ search (searchLimit fanout), 0 ≤ h.score) →
      List.Sorted (fun a b => b.similarity ≤ a.similarity)
        (getSimilarUsersVector search uid fanout)) := by
  have hsorted : List.Sorted (fun a b => a.2.1 ≤ b.2.1)
      (retainedNeighbors uid (search (searchLimit fanout)) fanout) :=
    List.Pairwise.sublist (List.take_sublist _ _) (sorted_sortNeighbors _)
  refine ⟨rfl, ?_, ?_, ?_, ?_, hsorted, rfl, ?_⟩
  · intro s' hs'
    simp only [getSimilarUsersVector, searchLimit, hs']
  · intro u hu
    obtain ⟨x, hxR, rfl⟩ := List.mem_map.1 hu
    have hxD := mem_retainedNeighbors hxR
    have hkey : x.1 ∈ (dedupHits uid (search (searchLimit fanout))).map (·.1) :=
      List.mem_map_of_mem _ hxD
    intro heq
    have hx1 : x.1 = uid := heq
    rw [hx1] at hkey
    exact (dedupHits_keys uid _).2 hkey
  · unfold getSimilarUsersVector
    rw [List.map_map]
    have h1 : ((dedupHits uid (search (searchLimit fanout))).map (·.1)).Nodup :=
      (dedupHits_keys uid _).1
    have h2 : ((sortNeighbors (dedupHits uid (search (searchLimit fanout)))).map
        (·.1)).Nodup :=
      ((List.perm_insertionSort _ _).map _).nodup_iff.2 h1
    exact List.Nodup.sublist
      (List.Sublist.map _ (List.take_sublist _ _)) h2
  · unfold getSimilarUsersVector retainedNeighbors
    rw [List.length_map]
    exact List.length_take_le _ _
  · intro hnn
    unfold getSimilarUsersVector
    rw [List.Sorted, List.pairwise_map]
    refine List.Pairwise.imp_of_mem ?_ hsorted
    intro a b ha hb hab
    have ha0 : 0 ≤ a.2.1 := dedupHits_nonneg uid _ hnn a (mem_retainedNeighbors ha)
    show similarity b.2.1 ≤ similarity a.2.1
    unfold similarity
    exact one_div_le_one_div_of_le (by linarith) (by linarith)

/-- Witness for C8: a concrete search oracle with nonnegative raw
distances; the returned list is sorted descending by similarity. -/
theorem similar_users_spec_witness :
    List.Sorted (fun a b => b.similarity ≤ a.similarity)
      (getSimilarUsersVector searchW "q" 2) :=
  (similar_users_spec searchW "q" 2).2.2.2.2.2.2.2
    (by
      intro h hh
      simp only [searchW, List.mem_cons, List.not_mem_nil, or_false] at hh
      rcases hh with rfl | rfl | rfl | rfl <;> norm_num)

theorem length_sortRecommendations (l : List Recommendation) :
    (sortRecommendations l).length = l.length :=
  List.length_insertionSort _ _

/-- On the all-stages-succeed, nonempty-intermediates path, the final
list is the score-sorted per-campaign records, Python-sliced by
`top_k`. -/
theorem getRecommendations_ok (env : Env) (uid : String) (top_k : Int)
    (sus : List SimilarUser) (camps : List Campaign) (eng : List (String × ℚ))
    (h1 : env.similarUsers uid NEIGHBOR_FANOUT = .ok sus) (hsus : sus ≠ [])
    (h2 : env.campaignsForUsers (sus.map (·.user_id)) = .ok camps) (hcamps : camps ≠ [])
    (h3 : env.engagementScores (camps.map (·.campaign_id)) = .ok eng) :
    getRecommendations env uid top_k =
      pySlice (sortRecommendations (camps.map (mkRecommendation sus eng))) top_k := by
  cases sus with
  | nil => exact absurd rfl hsus
  | cons a t =>
    cases camps with
    | nil => exact absurd rfl hcamps
    | cons c cs =>
      simp only [List.map_cons] at h2 h3
      simp [getRecommendations, getRecommendationsE, h1, h2, h3]

/-- Every returned recommendation was assembled by `mkRecommendation`. -/
theorem mem_getRecommendationsE {env : Env} {uid : String} {top_k : Int}
    {l : List Recommendation} (h : getRecommendationsE env uid top_k = .ok l) :
    ∀ r ∈ l, ∃ sus eng c, r = mkRecommendation sus eng c := by
  unfold getRecommendationsE at h
  split at h
  · exact absurd h (by simp)
  · split at h
    · intro r hr
      cases h
      simp at hr
    · split at h
      · exact absurd h (by simp)
      · split at h
        · intro r hr
          cases h
          simp at hr
        · split at h
          · exact absurd h (by simp)
          · cases h
            intro r hr
            have hr2 := mem_pySlice hr
            have hr3 := (List.mem_insertionSort _).1 hr2
            obtain ⟨c, _, rfl⟩ := List.mem_map.1 hr3
            exact ⟨_, _, c, rfl⟩

theorem mem_getRecommendations {env : Env} {uid : String} {top_k : Int}
    {r : Recommendation} (hr : r ∈ getRecommendations env uid top_k) :
    ∃ sus eng c, r = mkRecommendation sus eng c := by
  unfold getRecommendations at hr
  split at hr
  · exact mem_getRecommendationsE (by assumption) r hr
  · simp at hr

/-- C1: the orchestrator is a total function into lists (it never
raises), and the final list is empty whenever the similarity stage
returns no neighbors, whenever the campaign-expansion stage returns no
campaigns, or whenever any stage throws (modelled as `.error`). -/
theorem orchestrator_contract (env : Env) (uid : String) (top_k : Int) :
    (∀ e, env.similarUsers uid NEIGHBOR_FANOUT = .error e →
      getRecommendations env uid top_k = []) ∧
    (env.similarUsers uid NEIGHBOR_FANOUT = .ok [] →
      getRecommendations env uid top_k = []) ∧
    (∀ sus e, env.similarUsers uid NEIGHBOR_FANOUT = .ok sus →
      env.campaignsForUsers (sus.map (·.user_id)) = .error e →
      getRecommendations env uid top_k = []) ∧
    (∀ sus, env.similarUsers uid NEIGHBOR_FANOUT = .ok sus →
      env.campaignsForUsers (sus.map (·.user_id)) = .ok [] →
      getRecommendations env uid top_k = []) ∧
    (∀ sus camps e, env.similarUsers uid NEIGHBOR_FANOUT = .ok sus →
      env.campaignsForUsers (sus.map (·.user_id)) = .ok camps →
      env.engagementScores (camps.map (·.campaign_id)) = .error e →
      getRecommendations env uid top_k = []) := by
  refine ⟨?_, ?_, ?_, ?_, ?_⟩
  · intro e h
    simp [getRecommendations, getRecommendationsE, h]
  · intro h
    simp [getRecommendations, getRecommendationsE, h]
  · intro sus e h1 h2
    cases sus with
    | nil => simp [getRecommendations, getRecommendationsE, h1]
    | cons a t =>
      simp only [List.map_cons] at h2
      simp [getRecommendations, getRecommendationsE, h1, h2]
  · intro sus h1 h2
    cases sus with
    | nil => simp [getRecommendations, getRecommendationsE, h1]
    | cons a t =>
      simp only [List.map_cons] at h2
      simp [getRecommendations, getRecommendationsE, h1, h2]
  · intro sus camps e h1 h2 h3
    cases sus with
    | nil => simp [getRecommendations, getRecommendationsE, h1]
    | cons a t =>
      cases camps with
      | nil =>
        simp only [List.map_cons] at h2
        simp [getRecommendations, getRecommendationsE, h1, h2]
      | cons c cs =>
        simp only [List.map_cons] at h2 h3
        simp [getRecommendations, getRecommendationsE, h1, h2, h3]

/-- Witness for C1: an environment whose similarity stage succeeds with
no neighbors yields the empty list. -/
theorem orchestrator_contract_witness :
    getRecommendations envEmpty "u" 3 = [] :=
  (orchestrator_contract envEmpty "u" 3).2.1 rfl

/-- C7: the orchestrator's neighbor fan-out is the internal constant 5;
two environments whose similarity stages agree at fan-out 5 (however
much they differ at every other fan-out) produce identical outputs for
every requested `top_k`. -/
theorem fanout_constant (env env' : Env) (uid : String) (top_k : Int)
    (h1 : env.similarUsers uid NEIGHBOR_FANOUT = env'.similarUsers uid NEIGHBOR_FANOUT)
    (h2 : env.campaignsForUsers = env'.campaignsForUsers)
    (h3 : env.engagementScores = env'.engagementScores) :
    NEIGHBOR_FANOUT = 5 ∧
      getRecommendations env uid top_k = getRecommendations env' uid top_k := by
  refine ⟨rfl, ?_⟩
  unfold getRecommendations getRecommendationsE
  rw [h1, h2, h3]

/-- Witness for C7: `envFanA` and `envEmpty` differ at every fan-out
except 5, yet produce the same output. -/
theorem fanout_constant_witness :
    getRecommendations envFanA "u" 7 = getRecommendations envEmpty "u" 7 :=
  (fanout_constant envFanA envEmpty "u" 7 rfl rfl rfl).2

/-- C9: every returned item carries `confidence = min(score·1.2, 1.0)`,
so confidence is determined by score, and is at least the score when
the score lies in `[0,1]`. -/
theorem recommendation_confidence (env : Env) (uid : String) (top_k : Int)
    (r : Recommendation) (hr : r ∈ getRecommendations env uid top_k) :
    r.confidence = min (r.score * (6/5)) 1 ∧
      (0 ≤ r.score → r.score ≤ 1 → r.score ≤ r.confidence) := by
  obtain ⟨sus, eng, c, rfl⟩ := mem_getRecommendations hr
  refine ⟨rfl, ?_⟩
  intro h0 h1
  have hc : (mkRecommendation sus eng c).confidence =
      min ((mkRecommendation sus eng c).score * (6/5)) 1 := rfl
  rw [hc]
  refine le_min ?_ h1
  nlinarith

/-- Witness for C9 at the one-campaign environment `envOne`. -/
theorem recommendation_confidence_witness :
    (mkRecommendation [suU1] [] ⟨"cA", 1, ["u1"]⟩).confidence =
      min ((mkRecommendation [suU1] [] ⟨"cA", 1, ["u1"]⟩).score * (6/5)) 1 := by
  have hmem : mkRecommendation [suU1] [] ⟨"cA", 1, ["u1"]⟩ ∈
      getRecommendations envOne "u" 5 := by
    show mkRecommendation [suU1] [] ⟨"cA", 1, ["u1"]⟩ ∈
      [mkRecommendation [suU1] [] ⟨"cA", 1, ["u1"]⟩]
    exact List.mem_singleton_self _
  exact (recommendation_confidence envOne "u" 5 _ hmem).1

theorem score_recA :
    (mkRecommendation [suU1] [] ⟨"cA", 1, ["u1"]⟩).score = 1/2 := by
  simp +decide [mkRecommendation, suU1, combinedScore, lookupScore]
  norm_num

theorem score_recB :
    (mkRecommendation [suU1] [] ⟨"cB", 0, []⟩).score = 0 := by
  simp +decide [mkRecommendation, suU1, combinedScore, lookupScore]

theorem envTwo_ranked :
    sortRecommendations ([(⟨"cA", 1, ["u1"]⟩ : Campaign), ⟨"cB", 0, []⟩].map
        (mkRecommendation [suU1] [])) =
      [mkRecommendation [suU1] [] ⟨"cA", 1, ["u1"]⟩,
        mkRecommendation [suU1] [] ⟨"cB", 0, []⟩] := by
  have hle : (mkRecommendation [suU1] [] (⟨"cB", 0, []⟩ : Campaign)).score ≤
      (mkRecommendation [suU1] [] (⟨"cA", 1, ["u1"]⟩ : Campaign)).score := by
    rw [score_recA, score_recB]
    norm_num
  simp only [List.map_cons, List.map_nil, sortRecommendations, List.insertionSort,
    List.orderedInsert]
  rw [if_pos hle]

/-- C2 counterexample: the final list's length is bounded by `top_k`
only for nonnegative `top_k`; at `top_k = -1` with two resolved
campaigns the orchestrator returns one item, and `1 ≰ -1`. -/
theorem ranking_topk_counterexample :
    (getRecommendations envTwo "u" (-1)).length = 1 ∧
      ¬ (((getRecommendations envTwo "u" (-1)).length : Int) ≤ -1) := by
  have hok := getRecommendations_ok envTwo "u" (-1) [suU1]
      [⟨"cA", 1, ["u1"]⟩, ⟨"cB", 0, []⟩] [] rfl (List.cons_ne_nil _ _) rfl
      (List.cons_ne_nil _ _) rfl
  rw [pySlice_of_neg _ _ (by norm_num), envTwo_ranked] at hok
  have hlen : (getRecommendations envTwo "u" (-1)).length = 1 := by
    rw [hok]
    rfl
  refine ⟨hlen, ?_⟩
  rw [hlen]
  decide

/-- C2 (amended): on the success path the final list is sorted by score
non-increasing; ties between equal scores keep the relative order in
which the expansion stage produced the campaigns (stable sort); and for
`top_k ≥ 0` the length never exceeds `top_k` (for negative `top_k`
Python slicing instead drops trailing items — see the C10 theorem). -/
theorem ranking_sorted_stable_bounded (env : Env) (uid : String) (top_k : Int)
    (sus : List SimilarUser) (camps : List Campaign) (eng : List (String × ℚ))
    (h1 : env.similarUsers uid NEIGHBOR_FANOUT = .ok sus) (hsus : sus ≠ [])
    (h2 : env.campaignsForUsers (sus.map (·.user_id)) = .ok camps) (hcamps : camps ≠ [])
    (h3 : env.engagementScores (camps.map (·.campaign_id)) = .ok eng)
    (hk : 0 ≤ top_k) :
    List.Sorted (fun a b => b.score ≤ a.score) (getRecommendations env uid top_k) ∧
      (getRecommendations env uid top_k).length ≤ top_k.toNat ∧
      (∀ s : ℚ, (sortRecommendations (camps.map (mkRecommendation sus eng))).filter
          (fun r => decide (r.score = s)) =
        (camps.map (mkRecommendation sus eng)).filter (fun r => decide (r.score = s))) ∧
      getRecommendations env uid top_k =
        (sortRecommendations (camps.map (mkRecommendation sus eng))).take top_k.toNat := by
  have hok := getRecommendations_ok env uid top_k sus camps eng h1 hsus h2 hcamps h3
  rw [pySlice_of_nonneg _ _ hk] at hok
  refine ⟨?_, ?_, ?_, hok⟩
  · rw [hok]
    exact List.Pairwise.sublist (List.take_sublist _ _) (sorted_sortRecommendations _)
  · rw [hok]
    exact List.length_take_le _ _
  · intro s
    exact filter_score_sortRecommendations s _

/-- Witness for C2 at `envTwo` with `top_k = 1`. -/
theorem ranking_sorted_stable_bounded_witness :
    (getRecommendations envTwo "u" 1).length ≤ (1 : Int).toNat :=
  (ranking_sorted_stable_bounded envTwo "u" 1 [suU1]
    [⟨"cA", 1, ["u1"]⟩, ⟨"cB", 0, []⟩] [] rfl (List.cons_ne_nil _ _) rfl
    (List.cons_ne_nil _ _) rfl (by norm_num)).2.1

/-- C10: the final slice is Python slicing: `top_k = 0` yields the
empty list; a negative `top_k` instead drops the last `|top_k|` ranked
items, returning `max(n - |top_k|, 0)` items — a count that always
exceeds the (negative) requested `top_k`; and the GET endpoint passes
`top_k` through to the orchestrator unchanged, with no range
validation, so negative values are reachable. -/
theorem slicing_semantics (env : Env) (uid : String) :
    getRecommendations env uid 0 = [] ∧
    (∀ top_k : Int, apiGetRecommendations env uid top_k = getRecommendations env uid top_k) ∧
    (∀ top_k : Int, top_k < 0 →
      ∀ sus camps eng,
        env.similarUsers uid NEIGHBOR_FANOUT = .ok sus → sus ≠ [] →
        env.campaignsForUsers (sus.map (·.user_id)) = .ok camps → camps ≠ [] →
        env.engagementScores (camps.map (·.campaign_id)) = .ok eng →
        getRecommendations env uid top_k =
          (sortRecommendations (camps.map (mkRecommendation sus eng))).take
            (camps.length - (-top_k).toNat) ∧
        (getRecommendations env uid top_k).length = camps.length - (-top_k).toNat ∧
        top_k < ((getRecommendations env uid top_k).length : Int)) := by
  refine ⟨?_, fun _ => rfl, ?_⟩
  · cases h1 : env.similarUsers uid NEIGHBOR_FANOUT with
    | error e => simp [getRecommendations, getRecommendationsE, h1]
    | ok sus =>
      cases sus with
      | nil => simp [getRecommendations, getRecommendationsE, h1]
      | cons a t =>
        cases h2 : env.campaignsForUsers (a.user_id :: t.map (·.user_id)) with
        | error e => simp [getRecommendations, getRecommendationsE, h1, h2]
        | ok camps =>
          cases camps with
          | nil => simp [getRecommendations, getRecommendationsE, h1, h2]
          | cons c cs =>
            cases h3 : env.engagementScores (c.campaign_id :: cs.map (·.campaign_id)) with
            | error e => simp [getRecommendations, getRecommendationsE, h1, h2, h3]
            | ok eng =>
              simp [getRecommendations, getRecommendationsE, h1, h2, h3, pySlice]
  · intro top_k hneg sus camps eng h1 hsus h2 hcamps h3
    have hok := getRecommendations_ok env uid top_k sus camps eng h1 hsus h2 hcamps h3
    rw [pySlice_of_neg _ _ hneg, length_sortRecommendations, List.length_map] at hok
    refine ⟨hok, ?_, ?_⟩
    · rw [hok, List.length_take, length_sortRecommendations, List.length_map]
      exact min_eq_left (Nat.sub_le _ _)
    · omega

/-- Witness for C10 at `envTwo` with `top_k = -2`: both resolved
campaigns are dropped, leaving 0 items. -/
theorem slicing_semantics_witness :
    (getRecommendations envTwo "u" (-2)).length = 0 :=
  ((slicing_semantics envTwo "u").2.2 (-2) (by norm_num) [suU1]
    [⟨"cA", 1, ["u1"]⟩, ⟨"cB", 0, []⟩] [] rfl (List.cons_ne_nil _ _) rfl
    (List.cons_ne_nil _ _) rfl).2.1

end MarketingRec
